import Mathlib

/-!
Verification development for a small record-management service (Users and
Tasks) written in JavaScript.  The definitions below are a shallow embedding
of the repository's core logic:

* the query-translation layer (`parseQueryParams` in `src/routes/_utils.js`
  and `parseQueryWithFilterAlias` in the task-routes file),
* value coercion (`coerceCompleted`, `coerceDeadline`),
* assignment synchronisation (`applyAssignment`) and the four request
  handlers that maintain the Task.assignedUser / User.pendingTasks
  invariant (POST /api/tasks, PUT /api/tasks/:id, PUT /api/users/:id,
  DELETE /api/users/:id).

JavaScript's `JSON.parse` is modelled as an explicit parameter
`jp : String → Option JSVal` (the code under verification only branches on
its success or failure); `Date` timestamps are integers (epoch
milliseconds); the store is an explicit pair of lists threaded through the
handlers.
-/

namespace MP3

/-- A JSON value, as produced by `JSON.parse`. -/
inductive JSVal where
  | null
  | bool (b : Bool)
  | num (n : Int)
  | str (s : String)
  | arr (elems : List JSVal)
  | obj (fields : List (String × JSVal))

/-- JavaScript falsiness of a parsed JSON value (`NaN` cannot arise from
`JSON.parse`; fractional zero is covered by `num 0`). -/
def jsFalsy : JSVal → Bool
  | .null => true
  | .bool b => !b
  | .num n => n == 0
  | .str s => s == ""
  | .arr _ => false
  | .obj _ => false

/-- Models the `x || undefined` pattern applied to an optional parsed JSON
value: a falsy parse collapses to "absent". -/
def truthyOpt : Option JSVal → Option JSVal
  | none => none
  | some v => if jsFalsy v then none else some v

/-- Error taxonomy of the service.  `malformedQuery k` models
`new Error("Invalid JSON in 'k'")` with `statusCode = 400`;
`uncaughtJsonError` models the raw exception escaping a bare `JSON.parse`
call (no `statusCode`, no key name). -/
inductive Err where
  | malformedQuery (key : String)
  | uncaughtJsonError
  | invalidDeadline
  | invalidAssigneeId
  | assigneeNotFound
  | missingFields
  | invalidId
  | notFound
  | duplicateEmail
deriving Repr, DecidableEq

/-- The raw request query parameters consulted by the query layer
(`req.query.*`), each a string when present.  `whereQ` stands for the
`where` key (a Lean keyword). -/
structure QueryMap where
  whereQ : Option String
  filter : Option String
  sort : Option String
  select : Option String
  skip : Option String
  limit : Option String
  count : Option String

/-- The query descriptor `{ where, sort, select, skip, limit, count }`
returned by the query layer.  `whereD` stands for the `where` field. -/
structure QueryDescriptor where
  whereD : JSVal
  sort : Option JSVal
  select : Option JSVal
  skip : Int
  limit : Int
  count : Bool

/-- Embeds `parseJSONParam(val, name)`: `undefined` passes through, a parse
failure becomes the tagged 400 error naming the parameter. -/
def parseJSONParam (jp : String → Option JSVal) (val : Option String) (name : String) :
    Except Err (Option JSVal) :=
  match val with
  | none => .ok none
  | some s =>
    match jp s with
    | some v => .ok (some v)
    | none => .error (.malformedQuery name)

/-- ASCII whitespace trimmed by JavaScript's `Number()` and by the schema's
`trim: true`. -/
def isSpaceChar (c : Char) : Bool :=
  c == ' ' || c == '\t' || c == '\n' || c == '\r'

/-- Leading and trailing whitespace removed (structural, so it reduces in
the kernel, unlike `String.trim`). -/
def trimChars (cs : List Char) : List Char :=
  ((cs.dropWhile isSpaceChar).reverse.dropWhile isSpaceChar).reverse

/-- String trim on the model's strings. -/
def trimString (s : String) : String :=
  String.mk (trimChars s.toList)

/-- ASCII lowercase (JavaScript's `toLowerCase()` restricted to ASCII,
which is all the claims exercise). -/
def lowerChar (c : Char) : Char :=
  if 'A' ≤ c && c ≤ 'Z' then Char.ofNat (c.toNat + 32) else c

/-- Models `s.toLowerCase()`. -/
def lowerString (s : String) : String :=
  String.mk (s.toList.map lowerChar)

/-- Decimal integer numeric strings, as accepted by JavaScript's `Number()`
(after trimming; the empty string is `0`).  Fractional, exponent and
hex/octal/binary forms — which none of the claims exercise — are outside
the model and map to "NaN" (`none`). -/
def digitsToNatAux : List Char → Nat → Option Nat
  | [], acc => some acc
  | c :: cs, acc =>
    if c.isDigit then digitsToNatAux cs (acc * 10 + (c.toNat - 48)) else none

/-- Parses a nonempty run of decimal digits. -/
def digitsToNat : List Char → Option Nat
  | [] => none
  | c :: cs => digitsToNatAux (c :: cs) 0

/-- Models `Number(s)` for a string `s` (`none` is NaN). -/
def parseNumericString (s : String) : Option Int :=
  match trimChars s.toList with
  | [] => some 0
  | cs =>
    match cs with
    | '-' :: cs => (digitsToNat cs).map (fun n => -(n : Int))
    | '+' :: cs => (digitsToNat cs).map (fun n => (n : Int))
    | cs => (digitsToNat cs).map (fun n => (n : Int))

/-- Models the unary-plus coercion `+req.query.k` on an optional raw string
(`none` result is NaN; `+undefined` is NaN). -/
def jsPlus : Option String → Option Int
  | none => none
  | some s => parseNumericString s

/-- Models `Number.isFinite(+v) ? Math.max(0, +v) : 0` for `skip`. -/
def parseSkip (o : Option String) : Int :=
  match jsPlus o with
  | some n => max 0 n
  | none => 0

/-- Models `Number.isFinite(+v) ? Math.max(0, +v) : (defaults.limit ?? 0)`
for `limit`. -/
def parseLimit (o : Option String) (defaultLimit : Option Int) : Int :=
  match jsPlus o with
  | some n => max 0 n
  | none => defaultLimit.getD 0

/-- Models `String(req.query.count).toLowerCase() === "true"`
(`String(undefined)` is `"undefined"`, hence `false` when absent). -/
def parseCount : Option String → Bool
  | none => false
  | some s => lowerString s == "true"

/-- The key name reported for a `where`/`filter` parse failure:
`rawWhere === req.query.where ? "where" : "filter"`. -/
def whereKeyName (q : QueryMap) : String :=
  match q.whereQ with
  | some _ => "where"
  | none =>
    match q.filter with
    | some _ => "filter"
    | none => "where"

/-- Models `req.query.where ?? req.query.filter` (nullish coalescing: an
empty string is kept). -/
def rawWhereOf (q : QueryMap) : Option String :=
  match q.whereQ with
  | some s => some s
  | none => q.filter

/-- Embeds `parseQueryWithFilterAlias(req, defaults)` from the task-routes
file: `where`/`filter` alias with a truthiness guard (an empty-string value
yields `{}` without parsing), tagged parse errors naming the offending key,
`|| undefined` collapse on `sort`/`select`, clamped `skip`/`limit`, and the
`count` flag. -/
def parseQueryWithFilterAlias (jp : String → Option JSVal) (q : QueryMap)
    (defaultLimit : Option Int) : Except Err QueryDescriptor :=
  let whereRes : Except Err JSVal :=
    match rawWhereOf q with
    | none => .ok (.obj [])
    | some s =>
      if s = "" then .ok (.obj [])
      else
        match jp s with
        | some v => .ok v
        | none => .error (.malformedQuery (whereKeyName q))
  match whereRes with
  | .error e => .error e
  | .ok w =>
    match parseJSONParam jp q.sort "sort" with
    | .error e => .error e
    | .ok sortRaw =>
      match parseJSONParam jp q.select "select" with
      | .error e => .error e
      | .ok selRaw =>
        .ok { whereD := w, sort := truthyOpt sortRaw, select := truthyOpt selRaw,
              skip := parseSkip q.skip, limit := parseLimit q.limit defaultLimit,
              count := parseCount q.count }

/-- Embeds `parseQueryParams(req, defaults)` from `src/routes/_utils.js`.
Unlike `parseQueryWithFilterAlias`, the `where` value is fed to a bare
`JSON.parse` with no try/catch, so a malformed value raises an untagged
exception (`uncaughtJsonError`) that names no key and carries no 400
status. -/
def parseQueryParams (jp : String → Option JSVal) (q : QueryMap)
    (defaultLimit : Option Int) : Except Err QueryDescriptor :=
  let whereRes : Except Err JSVal :=
    match rawWhereOf q with
    | none => .ok (.obj [])
    | some s =>
      if s = "" then .ok (.obj [])
      else
        match jp s with
        | some v => .ok v
        | none => .error .uncaughtJsonError
  match whereRes with
  | .error e => .error e
  | .ok w =>
    match parseJSONParam jp q.sort "sort" with
    | .error e => .error e
    | .ok sortRaw =>
      match parseJSONParam jp q.select "select" with
      | .error e => .error e
      | .ok selRaw =>
        .ok { whereD := w, sort := truthyOpt sortRaw, select := truthyOpt selRaw,
              skip := parseSkip q.skip, limit := parseLimit q.limit defaultLimit,
              count := parseCount q.count }

/-- First field with the given key (JSON objects have unique keys, so this
is plain property access). -/
def lookupField (fields : List (String × JSVal)) (k : String) : Option JSVal :=
  match fields.find? (fun p => p.1 == k) with
  | some p => some p.2
  | none => none

/-- Models `delete o[k]`. -/
def delKey (fields : List (String × JSVal)) (k : String) : List (String × JSVal) :=
  fields.filter (fun p => p.1 != k)

/-- Models `{ ...o, k: v }`: overwrite in place when the key exists,
otherwise append. -/
def setKey (fields : List (String × JSVal)) (k : String) (v : JSVal) :
    List (String × JSVal) :=
  if fields.any (fun p => p.1 == k) then
    fields.map (fun p => if p.1 == k then (k, v) else p)
  else fields ++ [(k, v)]

/-- Own enumerable fields of a value under object spread `{...v}`:
objects spread their fields, arrays and strings spread index properties,
primitives spread nothing. -/
def spreadFields : JSVal → List (String × JSVal)
  | .obj fs => fs
  | .arr xs => (xs.enum).map (fun p => (toString p.1, p.2))
  | .str s => (s.toList.enum).map (fun p => (toString p.1, JSVal.str (String.mk [p.2])))
  | _ => []

/-- Models `...(select || {})` where `select` is the (possibly absent)
parsed projection. -/
def spreadOpt : Option JSVal → List (String × JSVal)
  | none => []
  | some v => spreadFields v

/-- Models `v === 1 || v === 0`: strict equality, so only the numbers `1`
and `0` qualify (never strings or booleans). -/
def isIdLit : JSVal → Bool
  | .num n => n == 1 || n == 0
  | _ => false

/-- Embeds the special `_id` projection rule shared by GET /api/tasks and
GET /api/users: when `where` is an object owning a key `_id` whose value is
strictly `1` or strictly `0`, that key is deleted from `where` and merged
into `select`; any other shape or value leaves both untouched. -/
def applyIdProjection (w : JSVal) (sel : Option JSVal) : JSVal × Option JSVal :=
  match w with
  | .obj fields =>
    match lookupField fields "_id" with
    | some v =>
      if isIdLit v then
        (.obj (delKey fields "_id"), some (.obj (setKey (spreadOpt sel) "_id" v)))
      else (w, sel)
    | none => (w, sel)
  | _ => (w, sel)

/-- A primitive request-body value as fed to the coercion helpers.
`date t` is a JavaScript `Date` holding epoch-millisecond timestamp `t`. -/
inductive JSPrim where
  | date (t : Int)
  | num (n : Int)
  | str (s : String)
  | bool (b : Bool)
  | null
deriving Repr, DecidableEq

/-- Models `String(v)` on the primitives that can reach it in
`coerceCompleted` (booleans and null are handled before stringification). -/
def jsToString : JSPrim → String
  | .str s => s
  | .num n => toString n
  | .bool b => toString b
  | .null => "null"
  | .date t => toString t

/-- Models `Number(v)` (`none` is NaN). -/
def jsToNumber : JSPrim → Option Int
  | .date t => some t
  | .num n => some n
  | .bool b => some (if b then 1 else 0)
  | .null => some 0
  | .str s => parseNumericString s

/-- Embeds `coerceCompleted(val, fallback)`: an actual boolean passes
through, null/absent yields the fallback, the case-insensitive literals
"true"/"false" are honoured, anything else yields the fallback. -/
def coerceCompleted (val : Option JSPrim) (fallback : Bool) : Bool :=
  match val with
  | some (.bool b) => b
  | none => fallback
  | some .null => fallback
  | some v =>
    let s := lowerString (jsToString v)
    if s == "true" then true
    else if s == "false" then false
    else fallback

/-- Gregorian leap year. -/
def isLeap (y : Nat) : Bool :=
  (y % 4 == 0 && y % 100 != 0) || y % 400 == 0

/-- Days in a month. -/
def daysInMonth (y m : Nat) : Nat :=
  if m == 2 then (if isLeap y then 29 else 28)
  else if m == 4 || m == 6 || m == 9 || m == 11 then 30
  else 31

/-- Days from 1970-01-01 to year `y`, month `m`, day `d` (civil calendar,
valid for `y ≥ 1`). -/
def daysFromEpoch (y m d : Nat) : Int :=
  let y' := if m ≤ 2 then y - 1 else y
  let era := y' / 400
  let yoe := y' % 400
  let doy := (153 * (if m > 2 then m - 3 else m + 9) + 2) / 5 + (d - 1)
  let doe := yoe * 365 + yoe / 4 - yoe / 100 + doy
  ((era * 146097 + doe : Nat) : Int) - 719468

/-- Two decimal digits. -/
def d2 (a b : Char) : Option Nat :=
  if a.isDigit && b.isDigit then some ((a.toNat - 48) * 10 + (b.toNat - 48)) else none

/-- Four decimal digits. -/
def d4 (a b c d : Char) : Option Nat :=
  if a.isDigit && b.isDigit && c.isDigit && d.isDigit then
    some ((a.toNat - 48) * 1000 + (b.toNat - 48) * 100 + (c.toNat - 48) * 10 + (d.toNat - 48))
  else none

/-- Epoch-millisecond timestamp of a validated civil datetime. -/
def mkTimestamp (y mo dy h mi se ms : Nat) : Option Int :=
  if 1 ≤ mo && mo ≤ 12 && 1 ≤ dy && dy ≤ daysInMonth y mo
      && h ≤ 23 && mi ≤ 59 && se ≤ 59 && ms ≤ 999 then
    some (daysFromEpoch y mo dy * 86400000
          + ((h * 3600000 + mi * 60000 + se * 1000 + ms : Nat) : Int))
  else none

/-- Time-of-day suffix of an ISO datetime: `HH:MM`, `HH:MM:SS` or
`HH:MM:SS.mmm`, each ending in `Z`. -/
def parseTimePart : List Char → Option (Nat × Nat × Nat × Nat)
  | [h1, h2, ':', m1, m2, 'Z'] =>
    (d2 h1 h2).bind fun h => (d2 m1 m2).map fun mi => (h, mi, 0, 0)
  | [h1, h2, ':', m1, m2, ':', s1, s2, 'Z'] =>
    (d2 h1 h2).bind fun h => (d2 m1 m2).bind fun mi =>
      (d2 s1 s2).map fun se => (h, mi, se, 0)
  | [h1, h2, ':', m1, m2, ':', s1, s2, '.', a, b, c, 'Z'] =>
    (d2 h1 h2).bind fun h => (d2 m1 m2).bind fun mi =>
      (d2 s1 s2).bind fun se =>
        if a.isDigit && b.isDigit && c.isDigit then
          some (h, mi, se, (a.toNat - 48) * 100 + (b.toNat - 48) * 10 + (c.toNat - 48))
        else none
  | _ => none

/-- Models `new Date(s)` for date text: the UTC-anchored ISO 8601 forms
`YYYY-MM-DD` (date-only is UTC in JavaScript) and `YYYY-MM-DDTHH:MM[:SS[.mmm]]Z`.
Zone-offset and local-time forms, which no claim exercises, are outside the
model.  `none` is an Invalid Date. -/
def parseISODate (s : String) : Option Int :=
  match s.toList with
  | [y1, y2, y3, y4, '-', mo1, mo2, '-', dy1, dy2] =>
    (d4 y1 y2 y3 y4).bind fun y => (d2 mo1 mo2).bind fun mo =>
      (d2 dy1 dy2).bind fun dy => mkTimestamp y mo dy 0 0 0 0
  | y1 :: y2 :: y3 :: y4 :: '-' :: mo1 :: mo2 :: '-' :: dy1 :: dy2 :: 'T' :: rest =>
    (d4 y1 y2 y3 y4).bind fun y => (d2 mo1 mo2).bind fun mo =>
      (d2 dy1 dy2).bind fun dy =>
        (parseTimePart rest).bind fun t =>
          mkTimestamp y mo dy t.1 t.2.1 t.2.2.1 t.2.2.2
  | _ => none

/-- The largest timestamp a JavaScript `Date` can hold (±8.64e15 ms). -/
def maxDateMs : Int := 8640000000000000

/-- Embeds `coerceDeadline(val)`: an existing `Date` passes through
unchanged; otherwise `Number(val)` is tried first and, only when it is NaN,
the input is handed to generic date-text parsing; an invalid result throws
the 400 error "deadline must be a valid date or epoch milliseconds"
(`invalidDeadline`). -/
def coerceDeadline (val : JSPrim) : Except Err Int :=
  match val with
  | .date t => .ok t
  | _ =>
    match jsToNumber val with
    | some n =>
      if -maxDateMs ≤ n ∧ n ≤ maxDateMs then .ok n else .error .invalidDeadline
    | none =>
      match val with
      | .str s =>
        match parseISODate s with
        | some t => .ok t
        | none => .error .invalidDeadline
      | _ => .error .invalidDeadline

/-- A User record.  Ids are the string forms of Mongo ObjectIds. -/
structure User where
  id : String
  name : String
  email : String
  pendingTasks : List String
deriving Repr, DecidableEq

/-- A Task record, per the Task schema (deadline and dateCreated are epoch
milliseconds). -/
structure Task where
  id : String
  name : String
  description : String
  deadline : Int
  completed : Bool
  assignedUser : Option String
  assignedUserName : String
  dateCreated : Int
deriving Repr, DecidableEq

/-- The record store: the two collections, as observed between requests. -/
structure Store where
  users : List User
  tasks : List Task
deriving Repr, DecidableEq

/-- Embeds `mongoose.Types.ObjectId.isValid` on strings: a 24-character hex
string, or any 12-character string (byte-length rule). -/
def isValidObjectId (s : String) : Bool :=
  (s.length == 24 && s.toList.all (fun c => c.isDigit || ('a' ≤ c && c ≤ 'f') || ('A' ≤ c && c ≤ 'F')))
    || s.length == 12

/-- `findById` on the user collection. -/
def findUser (users : List User) (uid : String) : Option User :=
  users.find? (fun u => u.id == uid)

/-- `findById` on the task collection. -/
def findTask (tasks : List Task) (tid : String) : Option Task :=
  tasks.find? (fun t => t.id == tid)

/-- `updateOne` by `_id` on users: replaces the first (unique) matching
record. -/
def updateFirstUser (uid : String) (u' : User) : List User → List User
  | [] => []
  | u :: rest => if u.id == uid then u' :: rest else u :: updateFirstUser uid u' rest

/-- `doc.save()` on a task fetched by `_id`: replaces the first (unique)
matching record. -/
def updateFirstTask (tid : String) (t' : Task) : List Task → List Task
  | [] => []
  | t :: rest => if t.id == tid then t' :: rest else t :: updateFirstTask tid t' rest

/-- `user.deleteOne()`: removes the (unique) record with this id. -/
def eraseFirstUser (uid : String) : List User → List User
  | [] => []
  | u :: rest => if u.id == uid then rest else u :: eraseFirstUser uid rest

/-- Embeds `User.updateOne({_id: uid}, {$pull: {pendingTasks: tid}})`:
removes every occurrence of `tid` from the matching user's list. -/
def pullPending (uid tid : String) : List User → List User
  | [] => []
  | u :: rest =>
    if u.id == uid then { u with pendingTasks := u.pendingTasks.filter (fun x => x != tid) } :: rest
    else u :: pullPending uid tid rest

/-- Embeds `User.updateOne({_id: uid, pendingTasks: {$ne: tid}},
{$push: {pendingTasks: tid}})`: the filter only matches the user when `tid`
is not already present, so the push is conditional (idempotent). -/
def pushPendingIfAbsent (uid tid : String) : List User → List User
  | [] => []
  | u :: rest =>
    if u.id == uid && !(u.pendingTasks.contains tid) then
      { u with pendingTasks := u.pendingTasks ++ [tid] } :: rest
    else u :: pushPendingIfAbsent uid tid rest

/-- The raw `assignedUser` identifier in a request body: absent, `null`, or
a string. -/
inductive AssigneeRaw where
  | absent
  | null
  | str (s : String)
deriving Repr, DecidableEq

/-- Embeds `applyAssignment(task, assignedUserId)`.  It reads the user
collection and returns the mutated in-memory Task plus the resolved user id;
it performs no store write itself (the return type has no store
component). -/
def applyAssignment (users : List User) (task : Task) (raw : AssigneeRaw) :
    Except Err (Task × Option String) :=
  match raw with
  | .absent => .ok ({ task with assignedUser := none, assignedUserName := "unassigned" }, none)
  | .null => .ok ({ task with assignedUser := none, assignedUserName := "unassigned" }, none)
  | .str s =>
    if s = "" then
      .ok ({ task with assignedUser := none, assignedUserName := "unassigned" }, none)
    else if !(isValidObjectId s) then .error .invalidAssigneeId
    else
      match findUser users s with
      | none => .error .assigneeNotFound
      | some u =>
        .ok ({ task with assignedUser := some u.id, assignedUserName := u.name }, some u.id)

/-- The request body consulted by the task handlers.  `name` and
`description` are strings when present; a missing-or-null description
defaults to the empty string. -/
structure TaskBody where
  name : Option String
  description : Option String
  deadline : Option JSPrim
  completed : Option JSPrim
  assignedUser : AssigneeRaw
deriving Repr, DecidableEq

/-- JavaScript falsiness of the `name`/`email` body fields (`!name`): absent
or the empty string. -/
def nameFalsy : Option String → Bool
  | none => true
  | some s => s == ""

/-- `deadline == null`: absent or literal null. -/
def deadlineNullish : Option JSPrim → Bool
  | none => true
  | some v => v == JSPrim.null

/-- The field mutation performed by PUT /api/tasks/:id before assignment
resolution (the schema trims the name on save). -/
def applyTaskBody (existing : Task) (body : TaskBody) (d : Int) : Task :=
  { existing with
    name := trimString (body.name.getD "")
    description := body.description.getD ""
    deadline := d
    completed := coerceCompleted body.completed false }

/-- The fresh document built by POST /api/tasks before assignment resolution
(schema defaults: unassigned, `dateCreated` now). -/
def newTaskDoc (newId : String) (now : Int) (body : TaskBody) (d : Int) : Task :=
  { id := newId
    name := trimString (body.name.getD "")
    description := body.description.getD ""
    deadline := d
    completed := coerceCompleted body.completed false
    assignedUser := none
    assignedUserName := "unassigned"
    dateCreated := now }

/-- Embeds POST /api/tasks: required-field check (`!name || deadline == null`),
deadline/completed coercion, assignment resolution, then `task.save()`
(append), then — only when an assignee was resolved — the conditional
`$push` onto that user's `pendingTasks`. -/
def postTask (store : Store) (newId : String) (now : Int) (body : TaskBody) :
    Store × Except Err Task :=
  if nameFalsy body.name || deadlineNullish body.deadline then
    (store, .error .missingFields)
  else
    match body.deadline with
    | none => (store, .error .missingFields)
    | some dl =>
      match coerceDeadline dl with
      | .error e => (store, .error e)
      | .ok d =>
        match applyAssignment store.users (newTaskDoc newId now body d) body.assignedUser with
        | .error e => (store, .error e)
        | .ok (task, assignedUserId) =>
          let store1 : Store := ⟨store.users, store.tasks ++ [task]⟩
          match assignedUserId with
          | some uid => (⟨pushPendingIfAbsent uid newId store1.users, store1.tasks⟩, .ok task)
          | none => (store1, .ok task)

/-- A write issued against the user collection by PUT /api/tasks/:id. -/
inductive UserWrite where
  | pullW (uid tid : String)
  | pushW (uid tid : String)
deriving Repr, DecidableEq

/-- Applies a logged user-collection write. -/
def applyUserWrite (users : List User) : UserWrite → List User
  | .pullW uid tid => pullPending uid tid users
  | .pushW uid tid => pushPendingIfAbsent uid tid users

/-- Applies a sequence of logged user-collection writes, in order. -/
def applyUserWrites (users : List User) (ws : List UserWrite) : List User :=
  ws.foldl applyUserWrite users

deriving instance DecidableEq for Except

/-- Result of PUT /api/tasks/:id: the store after the handler, the exact
sequence of writes it issued against the user collection, and the outcome. -/
structure PutTaskResult where
  store : Store
  userWrites : List UserWrite
  outcome : Except Err Task
deriving Repr, DecidableEq

/-- Embeds PUT /api/tasks/:id: id validation, task lookup, required-field
check, field mutation with deadline coercion, assignment resolution,
`existing.save()`, then the conditional `$pull` from the previous assignee
and conditional `$push` onto the new assignee — each only when the resolved
assignee differs from the previous one. -/
def putTask (store : Store) (taskId : String) (body : TaskBody) : PutTaskResult :=
  if !(isValidObjectId taskId) then ⟨store, [], .error .invalidId⟩
  else
    match findTask store.tasks taskId with
    | none => ⟨store, [], .error .notFound⟩
    | some existing =>
      if nameFalsy body.name || deadlineNullish body.deadline then
        ⟨store, [], .error .missingFields⟩
      else
        match body.deadline with
        | none => ⟨store, [], .error .missingFields⟩
        | some dl =>
          match coerceDeadline dl with
          | .error e => ⟨store, [], .error e⟩
          | .ok d =>
            match applyAssignment store.users (applyTaskBody existing body d) body.assignedUser with
            | .error e => ⟨store, [], .error e⟩
            | .ok (task, curr) =>
              let prev := existing.assignedUser
              let writes : List UserWrite :=
                (match prev with
                 | some p => if curr ≠ some p then [.pullW p taskId] else []
                 | none => []) ++
                (match curr with
                 | some c => if prev ≠ some c then [.pushW c taskId] else []
                 | none => [])
              ⟨⟨applyUserWrites store.users writes, updateFirstTask taskId task store.tasks⟩,
               writes, .ok task⟩

/-- Embeds DELETE /api/users/:id: id validation, user lookup, the bulk
`Task.updateMany({assignedUser: user._id}, {$set: {assignedUser: null,
assignedUserName: "unassigned"}})`, then `user.deleteOne()`. -/
def deleteUser (store : Store) (userId : String) : Store × Except Err Unit :=
  if !(isValidObjectId userId) then (store, .error .invalidId)
  else
    match findUser store.users userId with
    | none => (store, .error .notFound)
    | some user =>
      let tasks1 := store.tasks.map (fun t =>
        if t.assignedUser == some user.id then
          { t with assignedUser := none, assignedUserName := "unassigned" }
        else t)
      (⟨eraseFirstUser user.id store.users, tasks1⟩, .ok ())

/-- The request body consulted by the user handlers.  `pendingTasks` is
`some` exactly when the raw value is an array (`Array.isArray`); anything
else is treated as the empty replacement list. -/
structure UserBody where
  name : Option String
  email : Option String
  pendingTasks : Option (List String)
deriving Repr, DecidableEq

/-- Embeds PUT /api/users/:id: id validation, required-field check, user
lookup, duplicate-email check, the pendingTasks diff (`toRemove` = old not
new, `toAdd` = new not old, by string comparison), `user.save()`, then the
two reconciliation loops over the task collection.  The email is stored
lowercased.  Modelled from the spec: the User schema file is not under
src/, and per §3 of the spec `email` is "case-normalized to lowercase";
everything else here is translated from the handler in
`src/routes/_utils.js`. -/
def putUser (store : Store) (userId : String) (body : UserBody) :
    Store × Except Err User :=
  if !(isValidObjectId userId) then (store, .error .invalidId)
  else if nameFalsy body.name || nameFalsy body.email then (store, .error .missingFields)
  else
    match findUser store.users userId with
    | none => (store, .error .notFound)
    | some user =>
      let email := lowerString (body.email.getD "")
      if store.users.any (fun u => u.id != user.id && u.email == email) then
        (store, .error .duplicateEmail)
      else
        let newTaskIds := body.pendingTasks.getD []
        let prevTaskIds := user.pendingTasks
        let toRemove := prevTaskIds.filter (fun i => !(newTaskIds.contains i))
        let toAdd := newTaskIds.filter (fun i => !(prevTaskIds.contains i))
        let user1 : User :=
          { user with name := body.name.getD "", email := email, pendingTasks := newTaskIds }
        let users1 := updateFirstUser user.id user1 store.users
        let tasks1 := store.tasks.map (fun t =>
          if toRemove.contains t.id && t.assignedUser == some user.id then
            { t with assignedUser := none, assignedUserName := "unassigned" }
          else t)
        let tasks2 := tasks1.map (fun t =>
          if toAdd.contains t.id then
            { t with assignedUser := some user.id, assignedUserName := user1.name }
          else t)
        (⟨users1, tasks2⟩, .ok user1)

/-! ## Theorems for the claims -/

/-- C10: `coerceDeadline ""` yields the epoch-0 timestamp rather than
failing with `InvalidDeadline` (since `Number("")` is `0`), and a
Task-create request with deadline `""` passes the required-field check
(which only rejects null/absent) and succeeds with that epoch-0
deadline. -/
theorem c10_empty_string_deadline :
    coerceDeadline (.str "") = .ok 0 ∧
    ∀ (store : Store) (newId : String) (now : Int),
      postTask store newId now ⟨some "T", none, some (.str ""), none, .absent⟩ =
        (⟨store.users, store.tasks ++ [⟨newId, "T", "", 0, false, none, "unassigned", now⟩]⟩,
         .ok ⟨newId, "T", "", 0, false, none, "unassigned", now⟩) := by
  refine ⟨rfl, fun store newId now => rfl⟩

/-- C7 counterexample: the claim asserts `coerceDeadline(1700000000000)`
and `coerceDeadline("2023-11-14T00:00:00Z")` yield the same valid
timestamp, but the numeric input is 2023-11-14T22:13:20Z (1700000000000 ms)
while the ISO string is midnight UTC (1699920000000 ms): both succeed with
different timestamps. -/
theorem c7_counterexample :
    coerceDeadline (.num 1700000000000) = .ok 1700000000000 ∧
    coerceDeadline (.str "2023-11-14T00:00:00Z") = .ok 1699920000000 ∧
    (1700000000000 : Int) ≠ 1699920000000 := by
  refine ⟨rfl, by decide, by decide⟩

/-- C7 (amended): `coerceDeadline` returns an existing timestamp
unchanged; otherwise it interprets the input first as numeric epoch
milliseconds and, only when that is NaN, falls back to generic date-text
parsing; `coerceDeadline(1700000000000)` and
`coerceDeadline("2023-11-14T00:00:00Z")` both yield valid timestamps
(1700000000000 and 1699920000000 respectively — distinct instants), and
`coerceDeadline("not-a-date")` fails with `InvalidDeadline`. -/
theorem c7_coerceDeadline_spec :
    (∀ t : Int, coerceDeadline (.date t) = .ok t) ∧
    (∀ s n, parseNumericString s = some n → -maxDateMs ≤ n → n ≤ maxDateMs →
        coerceDeadline (.str s) = .ok n) ∧
    (∀ s, parseNumericString s = none →
        coerceDeadline (.str s) =
          (match parseISODate s with
           | some t => Except.ok t
           | none => Except.error Err.invalidDeadline)) ∧
    coerceDeadline (.num 1700000000000) = .ok 1700000000000 ∧
    coerceDeadline (.str "2023-11-14T00:00:00Z") = .ok 1699920000000 ∧
    coerceDeadline (.str "not-a-date") = .error .invalidDeadline := by
  refine ⟨fun t => rfl, ?_, ?_, rfl, by decide, by decide⟩
  · intro s n h h1 h2
    simp [coerceDeadline, jsToNumber, h, h1, h2]
  · intro s h
    simp [coerceDeadline, jsToNumber, h]

/-- C7 witness: the amended theorem applied at the concrete numeric string
"42" and the concrete non-date "nope". -/
theorem c7_witness :
    coerceDeadline (.str "42") = .ok 42 ∧
    coerceDeadline (.str "nope") = .error .invalidDeadline := by
  constructor
  · exact c7_coerceDeadline_spec.2.1 "42" 42 (by decide) (by decide) (by decide)
  · have h := c7_coerceDeadline_spec.2.2.1 "nope" (by decide)
    rw [h]
    decide

/-- C6: for every parsed `where` object owning a key `_id` whose value is
exactly the number `1` or exactly the number `0`, the `_id` key is removed
from `where` and merged into `select` as an inclusion/exclusion directive;
for every other value of `where._id` (a string, another number, a boolean),
both `where` and `select` are left untouched. -/
theorem c6_id_projection :
    (∀ (fields : List (String × JSVal)) (sel : Option JSVal) (v : JSVal),
       lookupField fields "_id" = some v → (v = .num 1 ∨ v = .num 0) →
       applyIdProjection (.obj fields) sel =
         (.obj (delKey fields "_id"), some (.obj (setKey (spreadOpt sel) "_id" v)))) ∧
    (∀ (fields : List (String × JSVal)) (sel : Option JSVal) (v : JSVal),
       lookupField fields "_id" = some v → v ≠ .num 1 → v ≠ .num 0 →
       applyIdProjection (.obj fields) sel = (.obj fields, sel)) := by
  constructor
  · intro fields sel v h hv
    have hlit : isIdLit v = true := by
      rcases hv with rfl | rfl <;> rfl
    simp [applyIdProjection, h, hlit]
  · intro fields sel v h h1 h0
    have hlit : isIdLit v = false := by
      cases v with
      | num n =>
        have hn1 : n ≠ 1 := fun hn => h1 (by rw [hn])
        have hn0 : n ≠ 0 := fun hn => h0 (by rw [hn])
        simp [isIdLit, hn1, hn0]
      | null => rfl
      | bool b => rfl
      | str s => rfl
      | arr xs => rfl
      | obj fs => rfl
    simp [applyIdProjection, h, hlit]

/-- C6 witness: the moving case on `{_id: 1, x: "y"}` with no select, and
the untouched case on `{_id: "1"}` (a string, not the number). -/
theorem c6_witness :
    applyIdProjection (.obj [("_id", .num 1), ("x", .str "y")]) none =
      (.obj [("x", .str "y")], some (.obj [("_id", .num 1)])) ∧
    applyIdProjection (.obj [("_id", .str "1")]) (some (.obj [("a", .num 1)])) =
      (.obj [("_id", .str "1")], some (.obj [("a", .num 1)])) := by
  constructor
  · exact c6_id_projection.1 [("_id", .num 1), ("x", .str "y")] none (.num 1) rfl (Or.inl rfl)
  · exact c6_id_projection.2 [("_id", .str "1")] (some (.obj [("a", .num 1)])) (.str "1") rfl
      (fun h => JSVal.noConfusion h) (fun h => JSVal.noConfusion h)

/-- C5: `applyAssignment`, given a Task and a raw assignee identifier,
unassigns (null assignee, "unassigned" name, no resolved id) on empty
string, null, or absent; fails with `InvalidAssigneeId` on a malformed id;
fails with `AssigneeNotFound` when no User has that id; and otherwise sets
`assignedUser`/`assignedUserName` from the found User and returns its id —
reading the user collection but writing nothing (the function has no store
output). -/
theorem c5_applyAssignment_spec :
    (∀ (users : List User) (task : Task),
       applyAssignment users task .absent =
         .ok ({ task with assignedUser := none, assignedUserName := "unassigned" }, none) ∧
       applyAssignment users task .null =
         .ok ({ task with assignedUser := none, assignedUserName := "unassigned" }, none) ∧
       applyAssignment users task (.str "") =
         .ok ({ task with assignedUser := none, assignedUserName := "unassigned" }, none)) ∧
    (∀ (users : List User) (task : Task) (s : String),
       s ≠ "" → isValidObjectId s = false →
       applyAssignment users task (.str s) = .error .invalidAssigneeId) ∧
    (∀ (users : List User) (task : Task) (s : String),
       s ≠ "" → isValidObjectId s = true → findUser users s = none →
       applyAssignment users task (.str s) = .error .assigneeNotFound) ∧
    (∀ (users : List User) (task : Task) (s : String) (u : User),
       s ≠ "" → isValidObjectId s = true → findUser users s = some u →
       applyAssignment users task (.str s) =
         .ok ({ task with assignedUser := some u.id, assignedUserName := u.name }, some u.id)) := by
  refine ⟨fun users task => ⟨rfl, rfl, rfl⟩, ?_, ?_, ?_⟩
  · intro users task s hs hv
    simp [applyAssignment, hs, hv]
  · intro users task s hs hv hf
    simp [applyAssignment, hs, hv, hf]
  · intro users task s u hs hv hf
    simp [applyAssignment, hs, hv, hf]

/-- C5 witness: the amended-free theorem applied at a one-user store, a
malformed id, a valid-but-missing id, and a resolving id. -/
theorem c5_witness :
    applyAssignment [⟨"aaaaaaaaaaaaaaaaaaaaaaaa", "A", "a@x.com", []⟩]
        ⟨"t", "T", "", 0, false, none, "unassigned", 0⟩ (.str "zz") =
      .error .invalidAssigneeId ∧
    applyAssignment [⟨"aaaaaaaaaaaaaaaaaaaaaaaa", "A", "a@x.com", []⟩]
        ⟨"t", "T", "", 0, false, none, "unassigned", 0⟩ (.str "bbbbbbbbbbbbbbbbbbbbbbbb") =
      .error .assigneeNotFound ∧
    applyAssignment [⟨"aaaaaaaaaaaaaaaaaaaaaaaa", "A", "a@x.com", []⟩]
        ⟨"t", "T", "", 0, false, none, "unassigned", 0⟩ (.str "aaaaaaaaaaaaaaaaaaaaaaaa") =
      .ok (⟨"t", "T", "", 0, false, some "aaaaaaaaaaaaaaaaaaaaaaaa", "A", 0⟩,
           some "aaaaaaaaaaaaaaaaaaaaaaaa") := by
  refine ⟨?_, ?_, ?_⟩
  · exact c5_applyAssignment_spec.2.1 _ _ "zz" (by decide) (by decide)
  · exact c5_applyAssignment_spec.2.2.1 _ _ "bbbbbbbbbbbbbbbbbbbbbbbb" (by decide) (by decide) rfl
  · exact c5_applyAssignment_spec.2.2.2 _ _ "aaaaaaaaaaaaaaaaaaaaaaaa"
      ⟨"aaaaaaaaaaaaaaaaaaaaaaaa", "A", "a@x.com", []⟩ (by decide) (by decide) rfl

/-- C1 counterexample.  Three concrete refutations of the claim as stated:
(1) `where` present with the value `""` — not valid JSON (`JSON.parse("")`
throws, so every parse function maps it to `none`; the one used here is
never even consulted) — yet `parseQueryWithFilterAlias` succeeds with the
empty `where` object instead of failing with `MalformedQuery`;
(2) `where = "{"` (invalid JSON, so the parse function rejects it) makes
`parseQueryParams` raise the untagged bare-`JSON.parse` exception, not a
`MalformedQuery` error naming `where`; (3) a well-formed `sort = "0"`
(parsing to the number `0`, as the supplied parse function records) is
collapsed to "no sort" by `|| undefined`, so the output does not
structurally equal the parsed JSON. -/
theorem c1_counterexample :
    parseQueryWithFilterAlias (fun _ => none) ⟨some "", none, none, none, none, none, none⟩ none =
      .ok ⟨.obj [], none, none, 0, 0, false⟩ ∧
    parseQueryParams (fun _ => none) ⟨some "\x7b", none, none, none, none, none, none⟩ none =
      .error .uncaughtJsonError ∧
    parseQueryWithFilterAlias (fun s => if s = "0" then some (.num 0) else none)
        ⟨none, none, some "0", none, none, none, none⟩ none =
      .ok ⟨.obj [], none, none, 0, 0, false⟩ := by
  refine ⟨rfl, rfl, rfl⟩

/-- C1 (amended): for every raw parameter map in which `where` (or, when
`where` is absent, `filter`) is present with a non-empty value the JSON
parser rejects, `parseQueryWithFilterAlias` fails with `MalformedQuery`
naming the offending key, while `parseQueryParams` raises an untagged JSON
syntax error naming no key (an empty-string value is treated as absent and
yields the empty `where` object without error); for well-formed JSON
values, the parsed `where` in the output equals the parsed JSON, and
`sort`/`select` equal the parsed JSON whenever that value is truthy (falsy
parses collapse to absent). -/
theorem c1_query_parsing_spec :
    (∀ (jp : String → Option JSVal) (q : QueryMap) (d : Option Int) (s : String),
       q.whereQ = some s → s ≠ "" → jp s = none →
       parseQueryWithFilterAlias jp q d = .error (.malformedQuery "where")) ∧
    (∀ (jp : String → Option JSVal) (q : QueryMap) (d : Option Int) (s : String),
       q.whereQ = none → q.filter = some s → s ≠ "" → jp s = none →
       parseQueryWithFilterAlias jp q d = .error (.malformedQuery "filter")) ∧
    (∀ (jp : String → Option JSVal) (q : QueryMap) (d : Option Int)
       (s ss sl : String) (v vs vl : JSVal),
       q.whereQ = some s → s ≠ "" → jp s = some v →
       q.sort = some ss → jp ss = some vs → jsFalsy vs = false →
       q.select = some sl → jp sl = some vl → jsFalsy vl = false →
       parseQueryWithFilterAlias jp q d =
         .ok ⟨v, some vs, some vl, parseSkip q.skip, parseLimit q.limit d, parseCount q.count⟩) ∧
    (∀ (jp : String → Option JSVal) (q : QueryMap) (d : Option Int) (s : String) (v : JSVal),
       q.whereQ = some s → s ≠ "" → jp s = some v → q.sort = none → q.select = none →
       parseQueryWithFilterAlias jp q d =
         .ok ⟨v, none, none, parseSkip q.skip, parseLimit q.limit d, parseCount q.count⟩) ∧
    (∀ (jp : String → Option JSVal) (q : QueryMap) (d : Option Int) (s : String),
       q.whereQ = some s → s ≠ "" → jp s = none →
       parseQueryParams jp q d = .error .uncaughtJsonError) := by
  refine ⟨?_, ?_, ?_, ?_, ?_⟩
  · intro jp q d s hw hs hjp
    simp [parseQueryWithFilterAlias, rawWhereOf, whereKeyName, hw, hs, hjp]
  · intro jp q d s hw hf hs hjp
    simp [parseQueryWithFilterAlias, rawWhereOf, whereKeyName, hw, hf, hs, hjp]
  · intro jp q d s ss sl v vs vl hw hs hjp hsort hjps hfs hsel hjpl hfl
    simp [parseQueryWithFilterAlias, rawWhereOf, whereKeyName, parseJSONParam, truthyOpt,
      hw, hs, hjp, hsort, hjps, hfs, hsel, hjpl, hfl]
  · intro jp q d s v hw hs hjp hsort hsel
    simp [parseQueryWithFilterAlias, rawWhereOf, whereKeyName, parseJSONParam, truthyOpt,
      hw, hs, hjp, hsort, hsel]
  · intro jp q d s hw hs hjp
    simp [parseQueryParams, rawWhereOf, hw, hs, hjp]

/-- C1 witness: the amended theorem applied at a concrete parse function
and concrete parameter maps — a rejected `where`, a rejected `filter` alias,
a fully well-formed map, and the bare-parse failure of `parseQueryParams`. -/
theorem c1_witness :
    parseQueryWithFilterAlias (fun s => if s = "W" then some (.obj [("a", .num 2)]) else none)
        ⟨some "oops", none, none, none, none, none, none⟩ none =
      .error (.malformedQuery "where") ∧
    parseQueryWithFilterAlias (fun _ => none)
        ⟨none, some "oops", none, none, none, none, none⟩ none =
      .error (.malformedQuery "filter") ∧
    parseQueryWithFilterAlias
        (fun s => if s = "W" then some (.obj [("a", .num 2)])
                  else if s = "S" then some (.obj [("b", .num 1)])
                  else if s = "P" then some (.obj [("c", .num 0)])
                  else none)
        ⟨some "W", none, some "S", some "P", none, none, none⟩ none =
      .ok ⟨.obj [("a", .num 2)], some (.obj [("b", .num 1)]), some (.obj [("c", .num 0)]),
           0, 0, false⟩ ∧
    parseQueryParams (fun _ => none) ⟨some "oops", none, none, none, none, none, none⟩ none =
      .error .uncaughtJsonError := by
  refine ⟨?_, ?_, ?_, ?_⟩
  · exact c1_query_parsing_spec.1 _ _ none "oops" rfl (by decide) rfl
  · exact c1_query_parsing_spec.2.1 _ _ none "oops" rfl rfl (by decide) rfl
  · exact c1_query_parsing_spec.2.2.1 _ _ none "W" "S" "P"
      (.obj [("a", .num 2)]) (.obj [("b", .num 1)]) (.obj [("c", .num 0)])
      rfl (by decide) rfl rfl rfl rfl rfl rfl rfl
  · exact c1_query_parsing_spec.2.2.2.2 _ _ none "oops" rfl (by decide) rfl

/-- C8: updating a Task is atomic with respect to validation failures —
whenever PUT /api/tasks/:id returns an error (missing name or deadline,
unparseable deadline, malformed assignee id, assignee not found, or the
earlier id/lookup failures), the handler returns before the Task save, so
the store — the stored Task and every User's `pendingTasks` — is unchanged
and no user-collection write was issued. -/
theorem c8_putTask_error_frame :
    ∀ (store : Store) (taskId : String) (body : TaskBody) (e : Err),
      (putTask store taskId body).outcome = .error e →
      (putTask store taskId body).store = store ∧
      (putTask store taskId body).userWrites = [] := by
  intro store taskId body e h
  rcases hres : putTask store taskId body with ⟨st, ws, out⟩
  rw [hres] at h
  simp only at h
  simp only [hres]
  simp only [putTask] at hres
  split at hres
  · cases hres; exact ⟨rfl, rfl⟩
  · split at hres
    · cases hres; exact ⟨rfl, rfl⟩
    · split at hres
      · cases hres; exact ⟨rfl, rfl⟩
      · split at hres
        · cases hres; exact ⟨rfl, rfl⟩
        · split at hres
          · cases hres; exact ⟨rfl, rfl⟩
          · split at hres
            · cases hres; exact ⟨rfl, rfl⟩
            · cases hres; simp at h

/-- C8 witness: applied at a concrete request whose assignee id is
malformed, on a store holding the target task. -/
theorem c8_witness :
    (putTask ⟨[], [⟨"cccccccccccccccccccccccc", "T", "", 5, false, none, "unassigned", 0⟩]⟩
        "cccccccccccccccccccccccc" ⟨some "T", none, some (.num 5), none, .str "zz"⟩).store =
      ⟨[], [⟨"cccccccccccccccccccccccc", "T", "", 5, false, none, "unassigned", 0⟩]⟩ ∧
    (putTask ⟨[], [⟨"cccccccccccccccccccccccc", "T", "", 5, false, none, "unassigned", 0⟩]⟩
        "cccccccccccccccccccccccc" ⟨some "T", none, some (.num 5), none, .str "zz"⟩).userWrites =
      [] :=
  c8_putTask_error_frame _ _ _ .invalidAssigneeId (by decide)

/-- C2: for every Task update in which the resolved new assignee differs
from the previous one, the handler issues exactly a `$pull` of the Task id
from the previous assignee's `pendingTasks` (only when a previous assignee
existed) followed by a `$push` onto the new assignee's (only when a new
assignee exists), and the user collection is exactly those writes applied;
when the resolved assignee equals the previous one, no user-collection
write is issued at all — even though the other Task fields were
rewritten. -/
theorem c2_putTask_assignee_sync :
    ∀ (store : Store) (taskId : String) (body : TaskBody) (existing : Task) (dl : JSPrim)
      (d : Int) (task : Task) (curr : Option String),
      isValidObjectId taskId = true →
      findTask store.tasks taskId = some existing →
      nameFalsy body.name = false →
      body.deadline = some dl →
      deadlineNullish body.deadline = false →
      coerceDeadline dl = .ok d →
      applyAssignment store.users (applyTaskBody existing body d) body.assignedUser =
        .ok (task, curr) →
      (curr = existing.assignedUser →
        (putTask store taskId body).userWrites = [] ∧
        (putTask store taskId body).store.users = store.users) ∧
      (curr ≠ existing.assignedUser →
        (putTask store taskId body).userWrites =
          ((match existing.assignedUser with
            | some p => [UserWrite.pullW p taskId]
            | none => []) ++
           (match curr with
            | some c => [UserWrite.pushW c taskId]
            | none => [])) ∧
        (putTask store taskId body).store.users =
          applyUserWrites store.users
            ((match existing.assignedUser with
              | some p => [UserWrite.pullW p taskId]
              | none => []) ++
             (match curr with
              | some c => [UserWrite.pushW c taskId]
              | none => [])) ∧
        (∀ p c, existing.assignedUser = some p → curr = some c →
          (putTask store taskId body).store.users =
            pushPendingIfAbsent c taskId (pullPending p taskId store.users))) := by
  intro store taskId body existing dl d task curr hid hfind hname hdl hnn hcd happ
  have hnn' : deadlineNullish (some dl) = false := hdl ▸ hnn
  constructor
  · intro hcurr
    rcases hp : existing.assignedUser with _ | p
    all_goals try rw [hp] at hcurr
    all_goals subst hcurr
    · simp [putTask, hid, hfind, hname, hdl, hnn', hcd, happ, hp, applyUserWrites]
    · simp [putTask, hid, hfind, hname, hdl, hnn', hcd, happ, hp, applyUserWrites]
  · intro hcurr
    rcases hc : curr with _ | c
    all_goals rw [hc] at hcurr happ
    · rcases hp : existing.assignedUser with _ | p
      all_goals try rw [hp] at hcurr
      · exact absurd rfl hcurr
      · refine ⟨by simp [putTask, hid, hfind, hname, hdl, hnn', hcd, happ, hp],
          by simp [putTask, hid, hfind, hname, hdl, hnn', hcd, happ, hp], ?_⟩
        intro p' c' hp' hc'
        cases hc'
    · rcases hp : existing.assignedUser with _ | p
      all_goals try rw [hp] at hcurr
      · refine ⟨by simp [putTask, hid, hfind, hname, hdl, hnn', hcd, happ, hp],
          by simp [putTask, hid, hfind, hname, hdl, hnn', hcd, happ, hp], ?_⟩
        intro p' c' hp' hc'
        try rw [hp] at hp'
        cases hp'
      · have h1 : some c ≠ some p := hcurr
        have h2 : some p ≠ some c := fun h => hcurr h.symm
        refine ⟨by simp [putTask, hid, hfind, hname, hdl, hnn', hcd, happ, hp, h1, h2],
          by simp [putTask, hid, hfind, hname, hdl, hnn', hcd, happ, hp, h1, h2], ?_⟩
        intro p' c' hp' hc'
        try rw [hp] at hp'
        have hpp : p = p' := Option.some.inj hp'
        have hcc : c = c' := Option.some.inj hc'
        subst hpp
        subst hcc
        simp [putTask, hid, hfind, hname, hdl, hnn', hcd, happ, hp, h1, h2,
          applyUserWrites, applyUserWrite]

/-- C2 witness: a concrete reassignment of task c… from user a… to user
b… issues exactly the pull-then-push pair, and a concrete same-assignee
update issues no user write. -/
theorem c2_witness :
    (putTask ⟨[⟨"aaaaaaaaaaaaaaaaaaaaaaaa", "A", "a@x.com", ["cccccccccccccccccccccccc"]⟩,
               ⟨"bbbbbbbbbbbbbbbbbbbbbbbb", "B", "b@x.com", []⟩],
              [⟨"cccccccccccccccccccccccc", "T", "", 5, false,
                some "aaaaaaaaaaaaaaaaaaaaaaaa", "A", 99⟩]⟩
        "cccccccccccccccccccccccc"
        ⟨some "T2", none, some (.num 6), none, .str "bbbbbbbbbbbbbbbbbbbbbbbb"⟩).userWrites =
      [UserWrite.pullW "aaaaaaaaaaaaaaaaaaaaaaaa" "cccccccccccccccccccccccc",
       UserWrite.pushW "bbbbbbbbbbbbbbbbbbbbbbbb" "cccccccccccccccccccccccc"] ∧
    (putTask ⟨[⟨"aaaaaaaaaaaaaaaaaaaaaaaa", "A", "a@x.com", ["cccccccccccccccccccccccc"]⟩,
               ⟨"bbbbbbbbbbbbbbbbbbbbbbbb", "B", "b@x.com", []⟩],
              [⟨"cccccccccccccccccccccccc", "T", "", 5, false,
                some "aaaaaaaaaaaaaaaaaaaaaaaa", "A", 99⟩]⟩
        "cccccccccccccccccccccccc"
        ⟨some "T3", none, some (.num 7), none, .str "aaaaaaaaaaaaaaaaaaaaaaaa"⟩).userWrites =
      [] := by
  constructor
  · exact ((c2_putTask_assignee_sync
      ⟨[⟨"aaaaaaaaaaaaaaaaaaaaaaaa", "A", "a@x.com", ["cccccccccccccccccccccccc"]⟩,
         ⟨"bbbbbbbbbbbbbbbbbbbbbbbb", "B", "b@x.com", []⟩],
        [⟨"cccccccccccccccccccccccc", "T", "", 5, false,
          some "aaaaaaaaaaaaaaaaaaaaaaaa", "A", 99⟩]⟩
      "cccccccccccccccccccccccc"
      ⟨some "T2", none, some (.num 6), none, .str "bbbbbbbbbbbbbbbbbbbbbbbb"⟩
      ⟨"cccccccccccccccccccccccc", "T", "", 5, false, some "aaaaaaaaaaaaaaaaaaaaaaaa", "A", 99⟩
      (.num 6) 6
      ⟨"cccccccccccccccccccccccc", "T2", "", 6, false, some "bbbbbbbbbbbbbbbbbbbbbbbb", "B", 99⟩
      (some "bbbbbbbbbbbbbbbbbbbbbbbb")
      (by decide) rfl (by decide) rfl (by decide) (by decide) (by decide)).2
      (by decide)).1
  · exact ((c2_putTask_assignee_sync
      ⟨[⟨"aaaaaaaaaaaaaaaaaaaaaaaa", "A", "a@x.com", ["cccccccccccccccccccccccc"]⟩,
         ⟨"bbbbbbbbbbbbbbbbbbbbbbbb", "B", "b@x.com", []⟩],
        [⟨"cccccccccccccccccccccccc", "T", "", 5, false,
          some "aaaaaaaaaaaaaaaaaaaaaaaa", "A", 99⟩]⟩
      "cccccccccccccccccccccccc"
      ⟨some "T3", none, some (.num 7), none, .str "aaaaaaaaaaaaaaaaaaaaaaaa"⟩
      ⟨"cccccccccccccccccccccccc", "T", "", 5, false, some "aaaaaaaaaaaaaaaaaaaaaaaa", "A", 99⟩
      (.num 7) 7
      ⟨"cccccccccccccccccccccccc", "T3", "", 7, false, some "aaaaaaaaaaaaaaaaaaaaaaaa", "A", 99⟩
      (some "aaaaaaaaaaaaaaaaaaaaaaaa")
      (by decide) rfl (by decide) rfl (by decide) (by decide) (by decide)).1 rfl).1

/-- Every survivor of `eraseFirstUser` was in the original list. -/
theorem eraseFirstUser_subset (uid : String) (users : List User) :
    ∀ u ∈ eraseFirstUser uid users, u ∈ users := by
  induction users with
  | nil => intro u h; simp [eraseFirstUser] at h
  | cons v rest ih =>
    intro u h
    by_cases hv : v.id = uid
    · simp [eraseFirstUser, beq_iff_eq, hv] at h
      exact List.mem_cons_of_mem _ h
    · simp only [eraseFirstUser, beq_iff_eq, if_neg hv, List.mem_cons] at h
      rcases h with rfl | h
      · exact List.mem_cons_self _ _
      · exact List.mem_cons_of_mem _ (ih u h)

/-- With pairwise-distinct ids, no survivor of `eraseFirstUser uid` carries
the id `uid`. -/
theorem eraseFirstUser_id_ne (uid : String) (users : List User)
    (hnd : (users.map User.id).Nodup) :
    ∀ u ∈ eraseFirstUser uid users, u.id ≠ uid := by
  induction users with
  | nil => intro u h; simp [eraseFirstUser] at h
  | cons v rest ih =>
    simp only [List.map_cons, List.nodup_cons] at hnd
    obtain ⟨hv, hrest⟩ := hnd
    intro u hu
    by_cases h : v.id = uid
    · simp [eraseFirstUser, beq_iff_eq, h] at hu
      intro heq
      apply hv
      rw [h, ← heq]
      exact List.mem_map_of_mem _ hu
    · simp only [eraseFirstUser, beq_iff_eq, if_neg h, List.mem_cons] at hu
      rcases hu with rfl | hu
      · exact h
      · exact ih hrest u hu

/-- C4: deleting an existing User first bulk-updates every Task whose
`assignedUser` references that User to `assignedUser = null`,
`assignedUserName = "unassigned"` (all other tasks untouched), and then the
User record no longer exists (every surviving user record has a different
id, and all survivors come from the original collection). -/
theorem c4_deleteUser_spec :
    ∀ (store : Store) (userId : String) (user : User),
      isValidObjectId userId = true →
      findUser store.users userId = some user →
      (store.users.map User.id).Nodup →
      (deleteUser store userId).2 = .ok () ∧
      (deleteUser store userId).1.tasks =
        store.tasks.map (fun t =>
          if t.assignedUser = some user.id then
            { t with assignedUser := none, assignedUserName := "unassigned" }
          else t) ∧
      (∀ u ∈ (deleteUser store userId).1.users, u.id ≠ user.id) ∧
      (∀ u ∈ (deleteUser store userId).1.users, u ∈ store.users) := by
  intro store userId user hid hfind hnd
  have hdel : deleteUser store userId =
      (⟨eraseFirstUser user.id store.users,
        store.tasks.map (fun t =>
          if t.assignedUser == some user.id then
            { t with assignedUser := none, assignedUserName := "unassigned" }
          else t)⟩, .ok ()) := by
    simp [deleteUser, hid, hfind]
  refine ⟨by simp [hdel], ?_, ?_, ?_⟩
  · rw [hdel]
    simp only
    apply List.map_congr_left
    intro t _
    by_cases h : t.assignedUser = some user.id <;> simp [h]
  · rw [hdel]
    exact eraseFirstUser_id_ne user.id store.users hnd
  · rw [hdel]
    exact eraseFirstUser_subset user.id store.users

/-- C4 witness: deleting user a… from a store with two tasks assigned to it
and one assigned elsewhere unassigns exactly the two. -/
theorem c4_witness :
    (deleteUser ⟨[⟨"aaaaaaaaaaaaaaaaaaaaaaaa", "A", "a@x.com", ["t1", "t2"]⟩],
                 [⟨"t1", "T1", "", 1, false, some "aaaaaaaaaaaaaaaaaaaaaaaa", "A", 0⟩,
                  ⟨"t2", "T2", "", 2, false, some "aaaaaaaaaaaaaaaaaaaaaaaa", "A", 0⟩,
                  ⟨"t3", "T3", "", 3, false, some "bbbbbbbbbbbbbbbbbbbbbbbb", "B", 0⟩]⟩
      "aaaaaaaaaaaaaaaaaaaaaaaa").2 = .ok () :=
  (c4_deleteUser_spec
    ⟨[⟨"aaaaaaaaaaaaaaaaaaaaaaaa", "A", "a@x.com", ["t1", "t2"]⟩],
     [⟨"t1", "T1", "", 1, false, some "aaaaaaaaaaaaaaaaaaaaaaaa", "A", 0⟩,
      ⟨"t2", "T2", "", 2, false, some "aaaaaaaaaaaaaaaaaaaaaaaa", "A", 0⟩,
      ⟨"t3", "T3", "", 3, false, some "bbbbbbbbbbbbbbbbbbbbbbbb", "B", 0⟩]⟩
    "aaaaaaaaaaaaaaaaaaaaaaaa"
    ⟨"aaaaaaaaaaaaaaaaaaaaaaaa", "A", "a@x.com", ["t1", "t2"]⟩
    (by decide) rfl (by decide)).1

/-- When no user both matches the id and lacks the task id, the conditional
`$push` matches no document and is a no-op. -/
theorem pushPendingIfAbsent_nomatch (uid tid : String) (users : List User)
    (h : ∀ u ∈ users, u.id = uid → tid ∈ u.pendingTasks) :
    pushPendingIfAbsent uid tid users = users := by
  induction users with
  | nil => rfl
  | cons u rest ih =>
    have hu : u.id = uid → tid ∈ u.pendingTasks := h u (List.mem_cons_self _ _)
    have hrest := ih (fun v hv => h v (List.mem_cons_of_mem _ hv))
    by_cases hid : u.id = uid
    · have hmem : tid ∈ u.pendingTasks := hu hid
      simp [pushPendingIfAbsent, beq_iff_eq, hid, List.elem_eq_mem, hmem, hrest]
    · simp [pushPendingIfAbsent, beq_iff_eq, hid, hrest]

/-- After the conditional `$push` on a collection with pairwise-distinct
ids, `findById` on the target returns the user with the task id appended. -/
theorem pushPendingIfAbsent_find (uid tid : String) (users : List User) (user : User)
    (hnd : (users.map User.id).Nodup)
    (hfind : findUser users uid = some user)
    (hfresh : tid ∉ user.pendingTasks) :
    findUser (pushPendingIfAbsent uid tid users) uid =
      some { user with pendingTasks := user.pendingTasks ++ [tid] } := by
  induction users with
  | nil => simp [findUser] at hfind
  | cons u rest ih =>
    simp only [List.map_cons, List.nodup_cons] at hnd
    obtain ⟨_, hrest⟩ := hnd
    by_cases hid : u.id = uid
    · have huser : u = user := by
        simpa [findUser, List.find?_cons, beq_iff_eq, hid] using hfind
      subst huser
      simp [pushPendingIfAbsent, findUser, List.find?_cons, beq_iff_eq, hid,
        List.elem_eq_mem, hfresh]
    · have hfind' : findUser rest uid = some user := by
        simpa [findUser, List.find?_cons, beq_iff_eq, hid] using hfind
      have hih := ih hrest hfind'
      simp only [findUser] at hih
      simp [pushPendingIfAbsent, findUser, List.find?_cons, beq_iff_eq, hid, hih]

/-- After the conditional `$push`, every user record carrying the target id
contains the pushed task id (so a second identical push is a no-op). -/
theorem pushPendingIfAbsent_saturated (uid tid : String) (users : List User) (user : User)
    (hnd : (users.map User.id).Nodup)
    (hfind : findUser users uid = some user)
    (hfresh : tid ∉ user.pendingTasks) :
    ∀ u ∈ pushPendingIfAbsent uid tid users, u.id = uid → tid ∈ u.pendingTasks := by
  induction users with
  | nil => simp [pushPendingIfAbsent]
  | cons u rest ih =>
    simp only [List.map_cons, List.nodup_cons] at hnd
    obtain ⟨hu, hrest⟩ := hnd
    by_cases hid : u.id = uid
    · have huser : u = user := by
        simpa [findUser, List.find?_cons, beq_iff_eq, hid] using hfind
      subst huser
      intro v hv hvid
      have hcond : (u.id == uid && !(u.pendingTasks.contains tid)) = true := by
        simp [beq_iff_eq, hid, List.elem_eq_mem, hfresh]
      simp only [pushPendingIfAbsent] at hv
      rw [if_pos hcond] at hv
      rcases List.mem_cons.mp hv with rfl | hv
      · simp
      · exfalso
        apply hu
        rw [hid, ← hvid]
        exact List.mem_map_of_mem User.id hv
    · have hfind' : findUser rest uid = some user := by
        simpa [findUser, List.find?_cons, beq_iff_eq, hid] using hfind
      intro v hv hvid
      have hcond : (u.id == uid && !(u.pendingTasks.contains tid)) = false := by
        simp [beq_iff_eq, hid]
      simp only [pushPendingIfAbsent] at hv
      rw [hcond] at hv
      simp only [Bool.false_eq_true, if_false] at hv
      rcases List.mem_cons.mp hv with rfl | hv
      · exact absurd hvid hid
      · exact ih hrest hfind' v hv hvid

/-- C3: for every Task creation that resolves an assignee, the handler
persists the Task first (the store step is exactly append-then-push), then
pushes the new id onto that User's `pendingTasks` with the conditional
(`$ne`) filter: re-reading the User afterwards shows the id appended, it
occurs exactly once, and replaying the same push a second time changes
nothing (idempotence). -/
theorem c3_postTask_idempotent_push :
    ∀ (store : Store) (newId : String) (now : Int) (body : TaskBody) (dl : JSPrim)
      (d : Int) (task : Task) (uid : String) (user : User),
      nameFalsy body.name = false →
      body.deadline = some dl →
      deadlineNullish body.deadline = false →
      coerceDeadline dl = .ok d →
      applyAssignment store.users (newTaskDoc newId now body d) body.assignedUser =
        .ok (task, some uid) →
      findUser store.users uid = some user →
      (store.users.map User.id).Nodup →
      newId ∉ user.pendingTasks →
      postTask store newId now body =
        (⟨pushPendingIfAbsent uid newId store.users, store.tasks ++ [task]⟩, .ok task) ∧
      findUser (pushPendingIfAbsent uid newId store.users) uid =
        some { user with pendingTasks := user.pendingTasks ++ [newId] } ∧
      (user.pendingTasks ++ [newId]).count newId = 1 ∧
      pushPendingIfAbsent uid newId (pushPendingIfAbsent uid newId store.users) =
        pushPendingIfAbsent uid newId store.users := by
  intro store newId now body dl d task uid user hname hdl hnn hcd happ hfind hnd hfresh
  have hnn' : deadlineNullish (some dl) = false := hdl ▸ hnn
  refine ⟨?_, ?_, ?_, ?_⟩
  · simp [postTask, hname, hdl, hnn', hcd, happ]
  · exact pushPendingIfAbsent_find uid newId store.users user hnd hfind hfresh
  · simp [List.count_append, List.count_eq_zero.mpr hfresh]
  · exact pushPendingIfAbsent_nomatch uid newId _
      (pushPendingIfAbsent_saturated uid newId store.users user hnd hfind hfresh)

/-- C3 witness: creating task c… assigned to user a… on a two-user store;
the new id lands exactly once in a…'s `pendingTasks` and a replayed push is
a no-op. -/
theorem c3_witness :
    postTask ⟨[⟨"aaaaaaaaaaaaaaaaaaaaaaaa", "A", "a@x.com", []⟩,
               ⟨"bbbbbbbbbbbbbbbbbbbbbbbb", "B", "b@x.com", []⟩], []⟩
        "cccccccccccccccccccccccc" 99
        ⟨some "T", none, some (.num 5), none, .str "aaaaaaaaaaaaaaaaaaaaaaaa"⟩ =
      (⟨pushPendingIfAbsent "aaaaaaaaaaaaaaaaaaaaaaaa" "cccccccccccccccccccccccc"
          [⟨"aaaaaaaaaaaaaaaaaaaaaaaa", "A", "a@x.com", []⟩,
           ⟨"bbbbbbbbbbbbbbbbbbbbbbbb", "B", "b@x.com", []⟩],
        [⟨"cccccccccccccccccccccccc", "T", "", 5, false,
          some "aaaaaaaaaaaaaaaaaaaaaaaa", "A", 99⟩]⟩,
       .ok ⟨"cccccccccccccccccccccccc", "T", "", 5, false,
            some "aaaaaaaaaaaaaaaaaaaaaaaa", "A", 99⟩) ∧
    findUser (pushPendingIfAbsent "aaaaaaaaaaaaaaaaaaaaaaaa" "cccccccccccccccccccccccc"
        [⟨"aaaaaaaaaaaaaaaaaaaaaaaa", "A", "a@x.com", []⟩,
         ⟨"bbbbbbbbbbbbbbbbbbbbbbbb", "B", "b@x.com", []⟩]) "aaaaaaaaaaaaaaaaaaaaaaaa" =
      some ⟨"aaaaaaaaaaaaaaaaaaaaaaaa", "A", "a@x.com", ["cccccccccccccccccccccccc"]⟩ := by
  have h := c3_postTask_idempotent_push
    ⟨[⟨"aaaaaaaaaaaaaaaaaaaaaaaa", "A", "a@x.com", []⟩,
      ⟨"bbbbbbbbbbbbbbbbbbbbbbbb", "B", "b@x.com", []⟩], []⟩
    "cccccccccccccccccccccccc" 99
    ⟨some "T", none, some (.num 5), none, .str "aaaaaaaaaaaaaaaaaaaaaaaa"⟩
    (.num 5) 5
    ⟨"cccccccccccccccccccccccc", "T", "", 5, false,
     some "aaaaaaaaaaaaaaaaaaaaaaaa", "A", 99⟩
    "aaaaaaaaaaaaaaaaaaaaaaaa"
    ⟨"aaaaaaaaaaaaaaaaaaaaaaaa", "A", "a@x.com", []⟩
    (by decide) rfl (by decide) (by decide) (by decide) rfl (by decide) (by decide)
  exact ⟨h.1, h.2.1⟩

/-- C9: replacing a User's `pendingTasks` list reconciles both sides —
every task whose id is in the old list but not the new one is unassigned,
but only when it is currently assigned to this User; every task whose id is
in the new list but not the old one is (re)assigned to this User under the
User's new name; tasks whose ids sit in both lists (or in neither) are
untouched; new-list ids matching no existing Task are skipped silently (the
call still succeeds); and the only user-collection write is the save of
this User's own record. -/
theorem c9_putUser_reconcile :
    ∀ (store : Store) (userId : String) (body : UserBody) (user : User)
      (newIds : List String),
      isValidObjectId userId = true →
      nameFalsy body.name = false →
      nameFalsy body.email = false →
      findUser store.users userId = some user →
      (store.users.any (fun u =>
        u.id != user.id && u.email == lowerString (body.email.getD ""))) = false →
      body.pendingTasks = some newIds →
      (putUser store userId body).2 =
        .ok { user with
              name := body.name.getD ""
              email := lowerString (body.email.getD "")
              pendingTasks := newIds } ∧
      (putUser store userId body).1.tasks =
        store.tasks.map (fun t =>
          if t.id ∈ user.pendingTasks ∧ t.id ∉ newIds ∧ t.assignedUser = some user.id then
            { t with assignedUser := none, assignedUserName := "unassigned" }
          else if t.id ∈ newIds ∧ t.id ∉ user.pendingTasks then
            { t with assignedUser := some user.id, assignedUserName := body.name.getD "" }
          else t) ∧
      (putUser store userId body).1.users =
        updateFirstUser user.id
          { user with
            name := body.name.getD ""
            email := lowerString (body.email.getD "")
            pendingTasks := newIds }
          store.users := by
  intro store userId body user newIds hid hname hemail hfind hdup hpt
  have hput : putUser store userId body =
      (⟨updateFirstUser user.id
          { user with
            name := body.name.getD ""
            email := lowerString (body.email.getD "")
            pendingTasks := newIds }
          store.users,
        (store.tasks.map (fun t =>
          if (user.pendingTasks.filter (fun i => !(newIds.contains i))).contains t.id
              && t.assignedUser == some user.id then
            { t with assignedUser := none, assignedUserName := "unassigned" }
          else t)).map (fun t =>
          if (newIds.filter (fun i => !(user.pendingTasks.contains i))).contains t.id then
            { t with assignedUser := some user.id, assignedUserName := body.name.getD "" }
          else t)⟩,
       .ok { user with
             name := body.name.getD ""
             email := lowerString (body.email.getD "")
             pendingTasks := newIds }) := by
    simp [putUser, hid, hname, hemail, hfind, hdup, hpt]
  refine ⟨by rw [hput], ?_, by rw [hput]⟩
  rw [hput]
  simp only [List.map_map]
  apply List.map_congr_left
  intro t _
  simp only [Function.comp_apply]
  by_cases hprev : t.id ∈ user.pendingTasks <;>
    by_cases hnew : t.id ∈ newIds <;>
      by_cases hass : t.assignedUser = some user.id <;>
        simp [List.elem_eq_mem, List.mem_filter, hprev, hnew, hass, beq_iff_eq]

/-- C9 witness: user a… replaces `pendingTasks = [t1, t2]` by
`[t2, t3, t4, tX]` on a store where t1 and t2 are assigned to it, t3 to
another user, t4 to nobody, and tX does not exist: t1 is unassigned, t2 is
untouched, t3 is stolen (last-write-wins), t4 is assigned, and the call
succeeds. -/
theorem c9_witness :
    (putUser ⟨[⟨"aaaaaaaaaaaaaaaaaaaaaaaa", "A", "a@x.com", ["t1", "t2"]⟩,
               ⟨"bbbbbbbbbbbbbbbbbbbbbbbb", "B", "b@x.com", ["t3"]⟩],
              [⟨"t1", "T1", "", 1, false, some "aaaaaaaaaaaaaaaaaaaaaaaa", "A", 0⟩,
               ⟨"t2", "T2", "", 2, false, some "aaaaaaaaaaaaaaaaaaaaaaaa", "A", 0⟩,
               ⟨"t3", "T3", "", 3, false, some "bbbbbbbbbbbbbbbbbbbbbbbb", "B", 0⟩,
               ⟨"t4", "T4", "", 4, false, none, "unassigned", 0⟩]⟩
        "aaaaaaaaaaaaaaaaaaaaaaaa"
        ⟨some "A2", some "a@x.com", some ["t2", "t3", "t4", "tX"]⟩).1.tasks =
      [⟨"t1", "T1", "", 1, false, none, "unassigned", 0⟩,
       ⟨"t2", "T2", "", 2, false, some "aaaaaaaaaaaaaaaaaaaaaaaa", "A", 0⟩,
       ⟨"t3", "T3", "", 3, false, some "aaaaaaaaaaaaaaaaaaaaaaaa", "A2", 0⟩,
       ⟨"t4", "T4", "", 4, false, some "aaaaaaaaaaaaaaaaaaaaaaaa", "A2", 0⟩] := by
  have h := c9_putUser_reconcile
    ⟨[⟨"aaaaaaaaaaaaaaaaaaaaaaaa", "A", "a@x.com", ["t1", "t2"]⟩,
      ⟨"bbbbbbbbbbbbbbbbbbbbbbbb", "B", "b@x.com", ["t3"]⟩],
     [⟨"t1", "T1", "", 1, false, some "aaaaaaaaaaaaaaaaaaaaaaaa", "A", 0⟩,
      ⟨"t2", "T2", "", 2, false, some "aaaaaaaaaaaaaaaaaaaaaaaa", "A", 0⟩,
      ⟨"t3", "T3", "", 3, false, some "bbbbbbbbbbbbbbbbbbbbbbbb", "B", 0⟩,
      ⟨"t4", "T4", "", 4, false, none, "unassigned", 0⟩]⟩
    "aaaaaaaaaaaaaaaaaaaaaaaa"
    ⟨some "A2", some "a@x.com", some ["t2", "t3", "t4", "tX"]⟩
    ⟨"aaaaaaaaaaaaaaaaaaaaaaaa", "A", "a@x.com", ["t1", "t2"]⟩
    ["t2", "t3", "t4", "tX"]
    (by decide) (by decide) (by decide) rfl (by decide) rfl
  rw [h.2.1]
  decide

end MP3
